import Mathlib

/-!
Verification development for the GoogleNet classification demo
(`CV_DNN_Application/Main.cpp`).

The program is a straight-line pipeline: parse command-line options,
load a Caffe model, read an image, build an input blob with fixed
parameters, run `setInput`/`forward` eleven times, arg-max the output
vector with `minMaxLoc`, read the label file `synset_words.txt`, and
print the best class and its probability.

The embedding below models:
 * strings as `List Char` (file lines and labels), with C++ `size_t`
   arithmetic made explicit where `std::string::find`/`substr` are used;
 * the external library calls (`readNetFromCaffe`, `imread`,
   `blobFromImage`, `forward`, `minMaxLoc`) through an environment
   record `Env` that fixes their outcomes for one run;
 * process termination (`exit(-1)`, `return 0`, and the uncaught
   `std::out_of_range` from `std::vector::at`) as a `Term` outcome;
 * numeric output formatting abstractly, through a rendering function
   `fmt : ℚ → String` supplied to the run (C++ iostream float
   formatting is outside the model; the value printed is exact).
-/

namespace GoogleNet

/-- C++ `size_t` modulus (64-bit platform). -/
def sizeTMod : Nat := 2 ^ 64

/-- C++ `std::string::npos` (`size_t(-1)`). -/
def npos : Nat := 2 ^ 64 - 1

/-- C++ `name.find(' ')`: index of the first space, `npos` when absent. -/
def cppFindSpace (s : List Char) : Nat :=
  match s.findIdx? (fun c => c = ' ') with
  | some i => i
  | none => npos

/-- C++ `name.substr(name.find(' ') + 1)` with `size_t` wraparound:
when the line has no space, `npos + 1` wraps to `0` and the whole line
is returned. -/
def labelOfLine (s : List Char) : List Char :=
  s.drop ((cppFindSpace s + 1) % sizeTMod)

/-- The `while (!fp.eof())` loop body of `readClassNames`: for each
line, if `name.length()` is nonzero, push `name.substr(name.find(' ') + 1)`.
The stream is modelled as the list of its lines. -/
def readLoop : List (List Char) → List (List Char)
  | [] => []
  | l :: ls => if l.length ≠ 0 then labelOfLine l :: readLoop ls else readLoop ls

/-- Substring of a line strictly after its first space character
(the specification's description of a well-formed line's label part). -/
def afterFirstSpace (s : List Char) : List Char :=
  (s.dropWhile (fun c => c ≠ ' ')).tail

/-- A well-formed label-file line: `<id><space><label>` where the id
part contains no space.  The `size_t` bound is satisfied by any real
C++ string. -/
def WellFormedLine (s : List Char) : Prop :=
  ∃ idPart rest, s = idPart ++ ' ' :: rest ∧ ' ' ∉ idPart ∧
    idPart.length + 1 < sizeTMod

/-- Command-line options recognised by the `CommandLineParser` block
(all have defaults; `help` prints the usage text and continues). -/
structure Args where
  help : Bool
  proto : String
  model : String
  image : String
  opencl : Bool
deriving DecidableEq

/-- The parser defaults from the `params` string in `doDnn`. -/
def defaultArgs : Args :=
  { help := false
    proto := "bvlc_googlenet.prototxt"
    model := "bvlc_googlenet.caffemodel"
    image := "space_shuttle.jpg"
    opencl := false }

/-- A decoded image, opaque to this program (produced by `imread`). -/
structure Image where
  id : Nat
deriving DecidableEq

/-- The parameters of a `cv::dnn::blobFromImage` call. -/
structure BlobParams where
  scalefactor : ℚ
  width : Nat
  height : Nat
  mean : ℚ × ℚ × ℚ
  swapRB : Bool
deriving DecidableEq

/-- The constants hard-coded at the `blobFromImage` call site in `doDnn`. -/
def fixedBlobParams : BlobParams :=
  { scalefactor := 1
    width := 224
    height := 224
    mean := (104, 117, 123)
    swapRB := false }

/-- A 4-dimensional input blob, determined by the image it was built
from and the construction parameters. -/
structure Blob where
  img : Image
  params : BlobParams

/-- Outcomes of the external library calls for one run, fixed up
front: whether `synset_words.txt` opens (and its lines), whether
`readNetFromCaffe` throws, whether the resulting handle is empty,
the network's (deterministic) forward function, and whether `imread`
succeeds. -/
structure Env where
  labelLines : Option (List (List Char))
  loadExc : Option String
  netEmpty : Bool
  forward : Blob → List ℚ
  image : Option Image

/-- How the process ends: a normal exit with a status code, or a crash
(uncaught `std::out_of_range` from `std::vector::at` reaches
`std::terminate`). -/
inductive Term where
  | exit (code : Int)
  | crash
deriving DecidableEq

/-- Observable result of one run: termination mode, the two output
streams, and a trace of the library interactions the claims mention. -/
structure RunResult where
  term : Term
  stdout : List String
  stderr : List String
  netLoads : Nat
  forwardCount : Nat
  blobCalls : List BlobParams
deriving DecidableEq

/-- The usage text printed by `parser.printMessage()` when `help` is set. -/
def usageMessage : String := "Sample app for loading googlenet model"

/-- The filename hard-coded in the `readClassNames` call. -/
def labelFileName : String := "synset_words.txt"

/-- The five stderr lines printed when the network handle is empty
after a caught exception. -/
def cantLoadLines (proto model : String) : List String :=
  [ "Can't load network by using the following files: "
  , "prototxt:   " ++ proto
  , "caffemodel: " ++ model
  , "bvlc_googlenet.caffemodel can be downloaded here:"
  , "http://dl.caffe.berkeleyvision.org/bvlc_googlenet.caffemodel" ]

/-- The `for (int i = 0; i < 10; i++)` loop: each iteration overwrites
`prob` with a fresh `forward` result, discarding the previous value. -/
def forwardLoop (f : Blob → List ℚ) (b : Blob) : Nat → List ℚ → List ℚ
  | 0, p => p
  | n + 1, _ => forwardLoop f b n (f b)

/-- Inner loop of `cv::minMaxLoc` restricted to what the program reads
(maximum value and its location): scan left to right, updating only on
a strictly greater value, so the first position of the maximum wins. -/
def maxScanGo (best : ℚ) (bestIdx i : Nat) : List ℚ → ℚ × Nat
  | [] => (best, bestIdx)
  | y :: ys =>
      if best < y then maxScanGo y i (i + 1) ys
      else maxScanGo best bestIdx (i + 1) ys

/-- `cv::minMaxLoc` on the reshaped 1×N probability matrix: maximum
value and the column index of its first occurrence. -/
def maxScan : List ℚ → ℚ × Nat
  | [] => (0, 0)
  | x :: xs => maxScanGo x 0 1 xs

/-- The probability vector the program ends up with: one `forward`,
then ten more whose results overwrite it (the output tensor is already
flat; `reshape(1, 1)` does not reorder it). -/
def probVecOf (env : Env) (img : Image) : List ℚ :=
  forwardLoop env.forward ⟨img, fixedBlobParams⟩ 10
    (env.forward ⟨img, fixedBlobParams⟩)

/-- `classNumber.x` after `minMaxLoc`: the reported class index. -/
def classIdOf (env : Env) (img : Image) : Nat :=
  (maxScan (probVecOf env img)).2

/-- `classProb` after `minMaxLoc`: the reported maximum probability. -/
def classProbOf (env : Env) (img : Image) : ℚ :=
  (maxScan (probVecOf env img)).1

/-- Everything in `doDnn` after the model-load `try`/`catch`:
OpenCL flag, `imread`, `blobFromImage`, the eleven `setInput`/`forward`
calls, `minMaxLoc`, `readClassNames("synset_words.txt")`, and the two
result lines.  `usage` and `errs` carry the output already produced. -/
def afterLoad (fmt : ℚ → String) (args : Args) (env : Env)
    (usage errs : List String) : RunResult :=
  match env.image with
  | none =>
      { term := .exit (-1)
        stdout := usage
        stderr := errs ++ ["Can't read image from the file: " ++ args.image]
        netLoads := 1
        forwardCount := 0
        blobCalls := [] }
  | some img =>
      match env.labelLines with
      | none =>
          { term := .exit (-1)
            stdout := usage
            stderr := errs ++
              ["File with classes labels not found: " ++ labelFileName]
            netLoads := 1
            forwardCount := 11
            blobCalls := [fixedBlobParams] }
      | some lines =>
          match (readLoop lines).get? (classIdOf env img) with
          | none =>
              { term := .crash
                stdout := usage
                stderr := errs
                netLoads := 1
                forwardCount := 11
                blobCalls := [fixedBlobParams] }
          | some name =>
              { term := .exit 0
                stdout := usage ++
                  [ "Best class: #" ++ toString (classIdOf env img) ++ " '" ++
                      String.mk name ++ "'"
                  , "Probability: " ++
                      fmt (classProbOf env img * 100) ++ "%" ]
                stderr := errs
                netLoads := 1
                forwardCount := 11
                blobCalls := [fixedBlobParams] }

/-- One run of the program (`main` calling `doDnn` and returning 0):
help text, model load with its `try`/`catch` (the empty-handle check
sits inside the `catch`, so an empty handle without an exception is
not detected), then the rest of the pipeline. -/
def run (fmt : ℚ → String) (args : Args) (env : Env) : RunResult :=
  let usage : List String := if args.help then [usageMessage] else []
  match env.loadExc with
  | some msg =>
      if env.netEmpty then
        { term := .exit (-1)
          stdout := usage
          stderr := ("Exception: " ++ msg) ::
            cantLoadLines args.proto args.model
          netLoads := 1
          forwardCount := 0
          blobCalls := [] }
      else afterLoad fmt args env usage ["Exception: " ++ msg]
  | none => afterLoad fmt args env usage []

/-- Modelled from the spec: the same program with the set-input/forward
cycle run exactly once (the ten-iteration repetition removed).  Used to
state that the repetition has no functional effect. -/
def probVecOnce (env : Env) (img : Image) : List ℚ :=
  env.forward ⟨img, fixedBlobParams⟩

/-- Modelled from the spec: class index from a single forward pass. -/
def classIdOnce (env : Env) (img : Image) : Nat :=
  (maxScan (probVecOnce env img)).2

/-- Modelled from the spec: probability from a single forward pass. -/
def classProbOnce (env : Env) (img : Image) : ℚ :=
  (maxScan (probVecOnce env img)).1

/-- Modelled from the spec: `afterLoad` with a single forward pass. -/
def afterLoadOnce (fmt : ℚ → String) (args : Args) (env : Env)
    (usage errs : List String) : RunResult :=
  match env.image with
  | none =>
      { term := .exit (-1)
        stdout := usage
        stderr := errs ++ ["Can't read image from the file: " ++ args.image]
        netLoads := 1
        forwardCount := 0
        blobCalls := [] }
  | some img =>
      match env.labelLines with
      | none =>
          { term := .exit (-1)
            stdout := usage
            stderr := errs ++
              ["File with classes labels not found: " ++ labelFileName]
            netLoads := 1
            forwardCount := 1
            blobCalls := [fixedBlobParams] }
      | some lines =>
          match (readLoop lines).get? (classIdOnce env img) with
          | none =>
              { term := .crash
                stdout := usage
                stderr := errs
                netLoads := 1
                forwardCount := 1
                blobCalls := [fixedBlobParams] }
          | some name =>
              { term := .exit 0
                stdout := usage ++
                  [ "Best class: #" ++ toString (classIdOnce env img) ++ " '" ++
                      String.mk name ++ "'"
                  , "Probability: " ++
                      fmt (classProbOnce env img * 100) ++ "%" ]
                stderr := errs
                netLoads := 1
                forwardCount := 1
                blobCalls := [fixedBlobParams] }

/-- Modelled from the spec: one run with a single set-input/forward cycle. -/
def runOnce (fmt : ℚ → String) (args : Args) (env : Env) : RunResult :=
  let usage : List String := if args.help then [usageMessage] else []
  match env.loadExc with
  | some msg =>
      if env.netEmpty then
        { term := .exit (-1)
          stdout := usage
          stderr := ("Exception: " ++ msg) ::
            cantLoadLines args.proto args.model
          netLoads := 1
          forwardCount := 0
          blobCalls := [] }
      else afterLoadOnce fmt args env usage ["Exception: " ++ msg]
  | none => afterLoadOnce fmt args env usage []

/-- A run ends at the model-load `exit(-1)` exactly when the library
threw and the handle is empty. -/
def modelLoadFatal (env : Env) : Prop :=
  env.loadExc ≠ none ∧ env.netEmpty = true

/-! ### Concrete runs used as witnesses -/

/-- A trivial rendering function for concrete runs. -/
def fmt0 : ℚ → String := fun _ => ""

/-- A concrete decoded image. -/
def img0 : Image := ⟨0⟩

/-- A fully successful environment: one-line label file "n a", no
exception, non-empty handle, network output `[1]`, readable image. -/
def env0 : Env :=
  { labelLines := some [['n', ' ', 'a']]
    loadExc := none
    netEmpty := false
    forward := fun _ => [1]
    image := some img0 }

/-- Like `env0` but `synset_words.txt` cannot be opened. -/
def env1 : Env := { env0 with labelLines := none }

/-- Like `env0` but the label file is empty, so the arg-max index 0 is
out of bounds for the empty label list. -/
def env2 : Env := { env0 with labelLines := some [] }

/-- Like `env0` but model loading throws while still producing a
non-empty handle. -/
def env3 : Env := { env0 with loadExc := some "boom" }


/-! ### Lemmas about the label loader -/

lemma findSpace_append (idPart rest : List Char) (h : ' ' ∉ idPart) :
    (idPart ++ ' ' :: rest).findIdx? (fun c => c = ' ') = some idPart.length := by
  induction idPart with
  | nil => simp
  | cons c cs ih =>
      have hc : c ≠ ' ' := fun hc => h (hc ▸ List.mem_cons_self c cs)
      have hcs : ' ' ∉ cs := fun hm => h (List.mem_cons_of_mem _ hm)
      simp only [List.cons_append, List.findIdx?_cons, decide_eq_true_eq]
      rw [if_neg hc, List.findIdx?_succ, ih hcs]
      simp

lemma labelOfLine_of_wf (idPart rest : List Char) (h : ' ' ∉ idPart)
    (hlen : idPart.length + 1 < sizeTMod) :
    labelOfLine (idPart ++ ' ' :: rest) = rest := by
  unfold labelOfLine cppFindSpace
  rw [findSpace_append _ _ h]
  show (idPart ++ ' ' :: rest).drop ((idPart.length + 1) % sizeTMod) = rest
  rw [Nat.mod_eq_of_lt hlen]
  have hsplit : idPart ++ ' ' :: rest = (idPart ++ [' ']) ++ rest := by simp
  have hl : idPart.length + 1 = (idPart ++ [' ']).length := by simp
  rw [hsplit, hl, List.drop_left]

lemma afterFirstSpace_of_wf (idPart rest : List Char) (h : ' ' ∉ idPart) :
    afterFirstSpace (idPart ++ ' ' :: rest) = rest := by
  unfold afterFirstSpace
  have hd : (idPart ++ ' ' :: rest).dropWhile (fun c => c ≠ ' ') = ' ' :: rest := by
    induction idPart with
    | nil => simp [List.dropWhile_cons]
    | cons c cs ih =>
        have hc : c ≠ ' ' := fun hc => h (hc ▸ List.mem_cons_self c cs)
        have hcs : ' ' ∉ cs := fun hm => h (List.mem_cons_of_mem _ hm)
        simp only [List.cons_append, List.dropWhile_cons]
        rw [if_pos (by simpa using hc)]
        exact ih hcs
  rw [hd]
  rfl

lemma labelOfLine_no_space (l : List Char) (h : ' ' ∉ l) :
    labelOfLine l = l := by
  unfold labelOfLine cppFindSpace
  have hf : l.findIdx? (fun c => c = ' ') = none := by
    rw [List.findIdx?_eq_none_iff]
    intro x hx
    simp only [decide_eq_false_iff_not]
    exact fun hx2 => h (hx2 ▸ hx)
  rw [hf]
  show l.drop ((npos + 1) % sizeTMod) = l
  have : (npos + 1) % sizeTMod = 0 := by
    unfold npos sizeTMod
    norm_num
  rw [this, List.drop_zero]

lemma readLoop_append (xs ys : List (List Char)) :
    readLoop (xs ++ ys) = readLoop xs ++ readLoop ys := by
  induction xs with
  | nil => rfl
  | cons l ls ih =>
      by_cases h : l.length ≠ 0 <;> simp [readLoop, h, ih]

lemma readLoop_eq_filter_map (lines : List (List Char)) :
    readLoop lines = (lines.filter fun l => !l.isEmpty).map labelOfLine := by
  induction lines with
  | nil => rfl
  | cons l ls ih =>
      cases l with
      | nil => simpa [readLoop] using ih
      | cons c cs => simp [readLoop, List.filter_cons, ih]

/-! ### Lemmas about the inference loop and the max scan -/

lemma forwardLoop_pos (f : Blob → List ℚ) (b : Blob) (n : Nat) (p : List ℚ) :
    forwardLoop f b (n + 1) p = f b := by
  induction n generalizing p with
  | zero => rfl
  | succ m ih => exact ih (f b)

lemma probVecOf_eq_once (env : Env) (img : Image) :
    probVecOf env img = probVecOnce env img :=
  forwardLoop_pos env.forward ⟨img, fixedBlobParams⟩ 9 _

lemma classIdOf_eq_once (env : Env) (img : Image) :
    classIdOf env img = classIdOnce env img := by
  unfold classIdOf classIdOnce
  rw [probVecOf_eq_once]

lemma classProbOf_eq_once (env : Env) (img : Image) :
    classProbOf env img = classProbOnce env img := by
  unfold classProbOf classProbOnce
  rw [probVecOf_eq_once]

lemma maxScanGo_spec (rest : List ℚ) (pre : List ℚ) (best : ℚ) (bestIdx : Nat)
    (hidx : bestIdx < pre.length)
    (hget : pre.get? bestIdx = some best)
    (hle : ∀ x ∈ pre, x ≤ best)
    (hfirst : ∀ j, j < bestIdx → ∀ x, pre.get? j = some x → x < best) :
    (pre ++ rest).get? (maxScanGo best bestIdx pre.length rest).2 =
      some (maxScanGo best bestIdx pre.length rest).1 ∧
    (∀ x ∈ pre ++ rest, x ≤ (maxScanGo best bestIdx pre.length rest).1) ∧
    (∀ j, j < (maxScanGo best bestIdx pre.length rest).2 →
      ∀ x, (pre ++ rest).get? j = some x →
        x < (maxScanGo best bestIdx pre.length rest).1) := by
  induction rest generalizing pre best bestIdx with
  | nil =>
      simp only [maxScanGo, List.append_nil]
      exact ⟨hget, hle, hfirst⟩
  | cons y ys ih =>
      simp only [maxScanGo]
      have hpre : pre.length + 1 = (pre ++ [y]).length := by simp
      have happ : pre ++ y :: ys = (pre ++ [y]) ++ ys := by simp
      by_cases hlt : best < y
      · rw [if_pos hlt, hpre, happ]
        refine ih (pre ++ [y]) y pre.length (by simp)
          (List.get?_concat_length pre y) ?_ ?_
        · intro x hx
          rcases List.mem_append.1 hx with h | h
          · exact le_of_lt (lt_of_le_of_lt (hle x h) hlt)
          · simp only [List.mem_singleton] at h
            exact h ▸ le_refl y
        · intro j hj x hgx
          rw [List.get?_append hj] at hgx
          exact lt_of_le_of_lt (hle x (List.get?_mem hgx)) hlt
      · rw [if_neg hlt, hpre, happ]
        push_neg at hlt
        refine ih (pre ++ [y]) best bestIdx (by simp; omega) ?_ ?_ ?_
        · rw [List.get?_append hidx]
          exact hget
        · intro x hx
          rcases List.mem_append.1 hx with h | h
          · exact hle x h
          · simp only [List.mem_singleton] at h
            exact h ▸ hlt
        · intro j hj x hgx
          rw [List.get?_append (lt_trans hj hidx)] at hgx
          exact hfirst j hj x hgx

/-- `minMaxLoc` correctness on a non-empty vector: the reported value
sits at the reported index, it bounds every element, and every earlier
element is strictly smaller (first occurrence of the maximum). -/
lemma maxScan_spec (x : ℚ) (xs : List ℚ) :
    (x :: xs).get? (maxScan (x :: xs)).2 = some (maxScan (x :: xs)).1 ∧
    (∀ z ∈ x :: xs, z ≤ (maxScan (x :: xs)).1) ∧
    (∀ j, j < (maxScan (x :: xs)).2 →
      ∀ z, (x :: xs).get? j = some z → z < (maxScan (x :: xs)).1) := by
  have h := maxScanGo_spec xs [x] x 0 (by simp) (by simp)
    (by intro z hz; simp only [List.mem_singleton] at hz; exact hz ▸ le_refl x)
    (by intro j hj; omega)
  simpa using h

lemma run_blobCalls (fmt : ℚ → String) (args : Args) (env : Env) :
    (run fmt args env).blobCalls = [] ∨
    (run fmt args env).blobCalls = [fixedBlobParams] := by
  have hal : ∀ usage errs,
      (afterLoad fmt args env usage errs).blobCalls = [] ∨
      (afterLoad fmt args env usage errs).blobCalls = [fixedBlobParams] := by
    intro usage errs
    unfold afterLoad
    cases env.image with
    | none => exact Or.inl rfl
    | some img =>
        dsimp only
        cases env.labelLines with
        | none => exact Or.inr rfl
        | some lines =>
            dsimp only
            cases (readLoop lines).get? (classIdOf env img) with
            | none => exact Or.inr rfl
            | some name => exact Or.inr rfl
  unfold run
  cases env.loadExc with
  | none => exact hal _ _
  | some msg =>
      cases hne : env.netEmpty with
      | false =>
          simp only [hne, Bool.false_eq_true, if_false]
          exact hal _ _
      | true => simp [hne]

lemma run_eq_afterLoad (fmt : ℚ → String) (args : Args) (env : Env)
    (hload : ¬ modelLoadFatal env) :
    run fmt args env =
      afterLoad fmt args env (if args.help then [usageMessage] else [])
        (match env.loadExc with
          | some msg => ["Exception: " ++ msg]
          | none => []) := by
  unfold run
  cases hexc : env.loadExc with
  | none => rfl
  | some msg =>
      dsimp only
      have hne : env.netEmpty = false := by
        rcases Bool.eq_false_or_eq_true env.netEmpty with h | h
        · exact absurd ⟨by rw [hexc]; simp, h⟩ hload
        · exact h
      rw [hne]
      rfl

lemma run_model_fatal (fmt : ℚ → String) (args : Args) (env : Env)
    (hmf : modelLoadFatal env) :
    ∃ msg, env.loadExc = some msg ∧
      run fmt args env =
        { term := .exit (-1)
          stdout := if args.help then [usageMessage] else []
          stderr := ("Exception: " ++ msg) :: cantLoadLines args.proto args.model
          netLoads := 1
          forwardCount := 0
          blobCalls := [] } := by
  obtain ⟨hsome, hne⟩ := hmf
  cases hexc : env.loadExc with
  | none => exact absurd hexc hsome
  | some msg =>
      refine ⟨msg, rfl, ?_⟩
      unfold run
      rw [hexc]
      dsimp only
      rw [hne]
      rfl

lemma afterLoad_image_missing (fmt : ℚ → String) (args : Args) (env : Env)
    (usage errs : List String) (himg : env.image = none) :
    afterLoad fmt args env usage errs =
      { term := .exit (-1)
        stdout := usage
        stderr := errs ++ ["Can't read image from the file: " ++ args.image]
        netLoads := 1
        forwardCount := 0
        blobCalls := [] } := by
  unfold afterLoad
  rw [himg]

lemma afterLoad_label_missing (fmt : ℚ → String) (args : Args) (env : Env)
    (usage errs : List String) (img : Image)
    (himg : env.image = some img) (hlab : env.labelLines = none) :
    afterLoad fmt args env usage errs =
      { term := .exit (-1)
        stdout := usage
        stderr := errs ++
          ["File with classes labels not found: " ++ labelFileName]
        netLoads := 1
        forwardCount := 11
        blobCalls := [fixedBlobParams] } := by
  unfold afterLoad
  rw [himg]
  dsimp only
  rw [hlab]

lemma afterLoad_crash (fmt : ℚ → String) (args : Args) (env : Env)
    (usage errs : List String) (img : Image) (lines : List (List Char))
    (himg : env.image = some img) (hlab : env.labelLines = some lines)
    (hget : (readLoop lines).get? (classIdOf env img) = none) :
    afterLoad fmt args env usage errs =
      { term := .crash
        stdout := usage
        stderr := errs
        netLoads := 1
        forwardCount := 11
        blobCalls := [fixedBlobParams] } := by
  unfold afterLoad
  rw [himg]
  dsimp only
  rw [hlab]
  dsimp only
  rw [hget]

lemma afterLoad_success (fmt : ℚ → String) (args : Args) (env : Env)
    (usage errs : List String) (img : Image) (lines : List (List Char))
    (name : List Char)
    (himg : env.image = some img) (hlab : env.labelLines = some lines)
    (hget : (readLoop lines).get? (classIdOf env img) = some name) :
    afterLoad fmt args env usage errs =
      { term := .exit 0
        stdout := usage ++
          [ "Best class: #" ++ toString (classIdOf env img) ++ " '" ++
              String.mk name ++ "'"
          , "Probability: " ++ fmt (classProbOf env img * 100) ++ "%" ]
        stderr := errs
        netLoads := 1
        forwardCount := 11
        blobCalls := [fixedBlobParams] } := by
  unfold afterLoad
  rw [himg]
  dsimp only
  rw [hlab]
  dsimp only
  rw [hget]

lemma afterLoad_errs_shift (fmt : ℚ → String) (args : Args) (env : Env)
    (usage : List String) (e : String) (errs : List String) :
    (afterLoad fmt args env usage (e :: errs)).term =
      (afterLoad fmt args env usage errs).term ∧
    (afterLoad fmt args env usage (e :: errs)).stdout =
      (afterLoad fmt args env usage errs).stdout ∧
    (afterLoad fmt args env usage (e :: errs)).stderr =
      e :: (afterLoad fmt args env usage errs).stderr := by
  unfold afterLoad
  cases env.image with
  | none => exact ⟨rfl, rfl, rfl⟩
  | some img =>
      dsimp only
      cases env.labelLines with
      | none => exact ⟨rfl, rfl, rfl⟩
      | some lines =>
          dsimp only
          cases (readLoop lines).get? (classIdOf env img) with
          | none => exact ⟨rfl, rfl, rfl⟩
          | some name => exact ⟨rfl, rfl, rfl⟩

lemma afterLoad_clear_exc (fmt : ℚ → String) (args : Args) (env : Env)
    (usage errs : List String) :
    afterLoad fmt args { env with loadExc := none } usage errs =
      afterLoad fmt args env usage errs := rfl

/-! ### Claims about the label loader -/

/-- C2 counterexample: the claim says a non-empty line with no space is
appended with its first character removed.  On the line "abc" the code
computes `substr(npos + 1)` = `substr(0)` and appends the line whole,
not `"bc"`. -/
theorem C2_counterexample :
    readLoop [['a', 'b', 'c']] = [['a', 'b', 'c']] ∧
    readLoop [['a', 'b', 'c']] ≠ [List.drop 1 ['a', 'b', 'c']] := by
  constructor
  · decide
  · decide

/-- C2 amended: for every non-empty label-file line with no space
character, the loader appends that line unchanged (`find` returns
`npos`; `npos + 1` wraps to `0` in `size_t` arithmetic, so `substr`
keeps the whole line). -/
theorem C2_no_space_line_kept_whole (xs ys : List (List Char))
    (l : List Char) (hne : l.length ≠ 0) (hsp : ' ' ∉ l) :
    readLoop (xs ++ l :: ys) = readLoop xs ++ l :: readLoop ys := by
  rw [readLoop_append]
  congr 1
  simp [readLoop, hne, labelOfLine_no_space l hsp]

/-- C2 witness: the amended statement at the concrete line "a". -/
theorem C2_no_space_line_kept_whole_witness :
    (['a'] : List Char).length ≠ 0 ∧ ' ' ∉ (['a'] : List Char) ∧
    readLoop ([] ++ ['a'] :: []) = readLoop [] ++ ['a'] :: readLoop [] :=
  ⟨by decide, by decide,
    C2_no_space_line_kept_whole [] [] ['a'] (by decide) (by decide)⟩

/-- C6: for a label file of N well-formed lines `<id><space><label>`,
the loaded list has exactly N entries, in file order, each equal to the
substring of its line after the first space. -/
theorem C6_well_formed_label_file (lines : List (List Char))
    (h : ∀ l ∈ lines, WellFormedLine l) :
    (readLoop lines).length = lines.length ∧
    readLoop lines = lines.map afterFirstSpace := by
  have key : readLoop lines = lines.map afterFirstSpace := by
    induction lines with
    | nil => rfl
    | cons l ls ih =>
        obtain ⟨idPart, rest, hl, hsp, hlen⟩ := h l (List.mem_cons_self _ _)
        subst hl
        have h1 := labelOfLine_of_wf idPart rest hsp hlen
        have h2 := afterFirstSpace_of_wf idPart rest hsp
        have hne : (idPart ++ ' ' :: rest).length ≠ 0 := by simp
        simp [readLoop, hne, h1, h2,
          ih (fun x hx => h x (List.mem_cons_of_mem _ hx))]
  exact ⟨by rw [key, List.length_map], key⟩

/-- C6 witness: the theorem at the one-line file "n a". -/
theorem C6_well_formed_label_file_witness :
    (∀ l ∈ [['n', ' ', 'a']], WellFormedLine l) ∧
    (readLoop [['n', ' ', 'a']]).length = 1 ∧
    readLoop [['n', ' ', 'a']] = [['n', ' ', 'a']].map afterFirstSpace := by
  have hwf : ∀ l ∈ [['n', ' ', 'a']], WellFormedLine l := by
    intro l hl
    simp only [List.mem_singleton] at hl
    exact ⟨['n'], ['a'], hl, by decide, by norm_num [sizeTMod]⟩
  exact ⟨hwf, (C6_well_formed_label_file _ hwf).1,
    (C6_well_formed_label_file _ hwf).2⟩

/-- C10: the loader skips empty lines, so the list holds one entry per
non-empty line in order (a class index is the rank among non-empty
lines), and a blank line anywhere shifts every later index down by one:
the run with the blank line equals the run without it. -/
theorem C10_blank_lines_skipped (lines xs ys : List (List Char)) :
    readLoop lines = (lines.filter fun l => !l.isEmpty).map labelOfLine ∧
    readLoop (xs ++ [] :: ys) = readLoop (xs ++ ys) := by
  refine ⟨readLoop_eq_filter_map lines, ?_⟩
  rw [readLoop_append, readLoop_append]
  simp [readLoop]

/-! ### Claims about the run -/

/-- C7: the program runs the set-input/forward cycle once and then ten
additional times on the identical blob, keeping only the last result;
with a deterministic network the observable behavior (termination,
stdout, stderr) equals that of the program running the cycle exactly
once. -/
theorem C7_repetition_no_effect (fmt : ℚ → String) (args : Args) (env : Env) :
    ((run fmt args env).forwardCount = 0 ∨
      (run fmt args env).forwardCount = 11) ∧
    (run fmt args env).term = (runOnce fmt args env).term ∧
    (run fmt args env).stdout = (runOnce fmt args env).stdout ∧
    (run fmt args env).stderr = (runOnce fmt args env).stderr := by
  have hal : ∀ usage errs,
      ((afterLoad fmt args env usage errs).forwardCount = 0 ∨
        (afterLoad fmt args env usage errs).forwardCount = 11) ∧
      (afterLoad fmt args env usage errs).term =
        (afterLoadOnce fmt args env usage errs).term ∧
      (afterLoad fmt args env usage errs).stdout =
        (afterLoadOnce fmt args env usage errs).stdout ∧
      (afterLoad fmt args env usage errs).stderr =
        (afterLoadOnce fmt args env usage errs).stderr := by
    intro usage errs
    unfold afterLoad afterLoadOnce
    cases env.image with
    | none => exact ⟨Or.inl rfl, rfl, rfl, rfl⟩
    | some img =>
        simp only [classIdOf_eq_once, classProbOf_eq_once]
        cases env.labelLines with
        | none => exact ⟨Or.inr rfl, rfl, rfl, rfl⟩
        | some lines =>
            dsimp only
            cases (readLoop lines).get? (classIdOnce env img) with
            | none => exact ⟨Or.inr rfl, rfl, rfl, rfl⟩
            | some name => exact ⟨Or.inr rfl, rfl, rfl, rfl⟩
  unfold run runOnce
  cases env.loadExc with
  | none => exact hal _ _
  | some msg =>
      cases hne : env.netEmpty with
      | false =>
          simp only [hne, Bool.false_eq_true, if_false]
          exact hal _ _
      | true => simp [hne]

/-- C9: every blob the run constructs uses the fixed constants
batch-implicit scale 1.0, size 224×224, mean (104, 117, 123), and no
red/blue swap, whatever the command-line arguments are (none of these
parameters is configurable). -/
theorem C9_fixed_blob_params (fmt : ℚ → String) (args : Args) (env : Env)
    (p : BlobParams) (hp : p ∈ (run fmt args env).blobCalls) :
    p = { scalefactor := 1, width := 224, height := 224,
          mean := (104, 117, 123), swapRB := false } := by
  rcases run_blobCalls fmt args env with h | h
  · rw [h] at hp
    exact absurd hp (List.not_mem_nil p)
  · rw [h] at hp
    simp only [List.mem_singleton] at hp
    exact hp

/-- C9 witness: the theorem applied to a successful concrete run, in
which the one recorded blob construction uses the fixed constants. -/
theorem C9_fixed_blob_params_witness :
    fixedBlobParams ∈ (run fmt0 defaultArgs env0).blobCalls ∧
    fixedBlobParams = { scalefactor := 1, width := 224, height := 224,
                        mean := (104, 117, 123), swapRB := false } := by
  have hmem : fixedBlobParams ∈ (run fmt0 defaultArgs env0).blobCalls := by
    show fixedBlobParams ∈ [fixedBlobParams]
    exact List.mem_singleton.mpr rfl
  exact ⟨hmem, C9_fixed_blob_params fmt0 defaultArgs env0 fixedBlobParams hmem⟩

/-- C1 counterexample: with the label file missing and everything else
fine, the program does exit with -1 and the message naming
"synset_words.txt" — but only after loading the model once and running
eleven forward passes, because `readClassNames` is called last in
`doDnn`.  This refutes the claim's "without attempting model load or
inference (label loading happens before model load and forward
passes)". -/
theorem C1_counterexample :
    (run fmt0 defaultArgs env1).term = Term.exit (-1) ∧
    (run fmt0 defaultArgs env1).stderr =
      ["File with classes labels not found: " ++ labelFileName] ∧
    (run fmt0 defaultArgs env1).netLoads = 1 ∧
    (run fmt0 defaultArgs env1).forwardCount = 11 :=
  ⟨rfl, rfl, rfl, rfl⟩

/-- C1 amended: for every run where the label file cannot be opened,
model load does not fail fatally, and the image is readable, the
program terminates with status -1 and emits a message containing the
missing filename — but only after attempting model load (once) and
inference (eleven forward passes), since label loading happens after
the forward passes, not before. -/
theorem C1_missing_label_file (fmt : ℚ → String) (args : Args) (env : Env)
    (img : Image) (hlab : env.labelLines = none) (himg : env.image = some img)
    (hload : ¬ modelLoadFatal env) :
    (run fmt args env).term = Term.exit (-1) ∧
    ("File with classes labels not found: " ++ labelFileName) ∈
      (run fmt args env).stderr ∧
    (run fmt args env).netLoads = 1 ∧
    (run fmt args env).forwardCount = 11 := by
  rw [run_eq_afterLoad fmt args env hload,
    afterLoad_label_missing fmt args env _ _ img himg hlab]
  refine ⟨rfl, ?_, rfl, rfl⟩
  simp

/-- C1 witness: the amended statement at the concrete environment with
only the label file missing. -/
theorem C1_missing_label_file_witness :
    env1.labelLines = none ∧ env1.image = some img0 ∧
    ¬ modelLoadFatal env1 ∧
    ((run fmt0 defaultArgs env1).term = Term.exit (-1) ∧
     ("File with classes labels not found: " ++ labelFileName) ∈
       (run fmt0 defaultArgs env1).stderr ∧
     (run fmt0 defaultArgs env1).netLoads = 1 ∧
     (run fmt0 defaultArgs env1).forwardCount = 11) :=
  ⟨rfl, rfl, fun h => h.1 rfl,
    C1_missing_label_file fmt0 defaultArgs env1 img0 rfl rfl (fun h => h.1 rfl)⟩

/-- C3: when the arg-max class index is at or beyond the label list's
length, there is no bounds check in the program's own logic before the
final lookup; the run ends in a crash (the unguarded lookup raises an
uncaught out-of-range error that aborts the process) instead of
producing a result. -/
theorem C3_out_of_bounds_crash (fmt : ℚ → String) (args : Args) (env : Env)
    (img : Image) (lines : List (List Char))
    (himg : env.image = some img) (hlab : env.labelLines = some lines)
    (hload : ¬ modelLoadFatal env)
    (hoob : (readLoop lines).length ≤ classIdOf env img) :
    (run fmt args env).term = Term.crash := by
  rw [run_eq_afterLoad fmt args env hload,
    afterLoad_crash fmt args env _ _ img lines himg hlab
      (List.get?_len_le hoob)]

/-- C3 witness: crash with an empty label file (arg-max index 0, label
list length 0). -/
theorem C3_out_of_bounds_crash_witness :
    env2.image = some img0 ∧ env2.labelLines = some [] ∧
    ¬ modelLoadFatal env2 ∧
    (readLoop []).length ≤ classIdOf env2 img0 ∧
    (run fmt0 defaultArgs env2).term = Term.crash :=
  ⟨rfl, rfl, fun h => h.1 rfl, le_refl 0,
    C3_out_of_bounds_crash fmt0 defaultArgs env2 img0 [] rfl rfl
      (fun h => h.1 rfl) (le_refl 0)⟩

/-- C4: whenever the run exits normally, the status is 0 or -1, and it
is -1 exactly in the three failure cases: fatal model-load failure
(exception with empty handle), unreadable image, or missing label
file.  The out-of-bounds lookup does not exit: it crashes, which is
not a status produced by the program's own logic. -/
theorem C4_exit_codes (fmt : ℚ → String) (args : Args) (env : Env) (c : Int)
    (h : (run fmt args env).term = Term.exit c) :
    (c = 0 ∨ c = -1) ∧
    (c = -1 ↔
      (modelLoadFatal env ∨ env.image = none ∨ env.labelLines = none)) := by
  by_cases hmf : modelLoadFatal env
  · obtain ⟨msg, hm, hrun⟩ := run_model_fatal fmt args env hmf
    rw [hrun] at h
    dsimp only at h
    injection h with hc
    subst hc
    exact ⟨Or.inr rfl, iff_of_true rfl (Or.inl hmf)⟩
  · rw [run_eq_afterLoad fmt args env hmf] at h
    cases himg : env.image with
    | none =>
        rw [afterLoad_image_missing fmt args env _ _ himg] at h
        dsimp only at h
        injection h with hc
        subst hc
        exact ⟨Or.inr rfl, iff_of_true rfl (Or.inr (Or.inl rfl))⟩
    | some img =>
        cases hlab : env.labelLines with
        | none =>
            rw [afterLoad_label_missing fmt args env _ _ img himg hlab] at h
            dsimp only at h
            injection h with hc
            subst hc
            exact ⟨Or.inr rfl, iff_of_true rfl (Or.inr (Or.inr rfl))⟩
        | some lines =>
            cases hget : (readLoop lines).get? (classIdOf env img) with
            | none =>
                rw [afterLoad_crash fmt args env _ _ img lines
                  himg hlab hget] at h
                dsimp only at h
                exact Term.noConfusion h
            | some name =>
                rw [afterLoad_success fmt args env _ _ img lines name
                  himg hlab hget] at h
                dsimp only at h
                injection h with hc
                subst hc
                refine ⟨Or.inl rfl, ?_⟩
                constructor
                · intro h0
                  norm_num at h0
                · rintro (hf | hi | hl)
                  · exact absurd hf hmf
                  · simp [himg] at hi
                  · simp [hlab] at hl

/-- C4 witness: the theorem at a fully successful run, which exits
with status 0. -/
theorem C4_exit_codes_witness :
    (run fmt0 defaultArgs env0).term = Term.exit 0 ∧
    (((0 : Int) = 0 ∨ (0 : Int) = -1) ∧
     ((0 : Int) = -1 ↔
       (modelLoadFatal env0 ∨ env0.image = none ∨ env0.labelLines = none))) :=
  ⟨rfl, C4_exit_codes fmt0 defaultArgs env0 0 rfl⟩

/-- C5: if model loading throws, the exception message is printed;
with an empty handle the run then prints the two file paths and the
hint URL and exits -1; with a non-empty handle despite the caught
exception, execution continues exactly as in the run without the
exception (same termination and stdout, stderr prefixed by the
exception line). -/
theorem C5_model_load_exception (fmt : ℚ → String) (args : Args) (env : Env)
    (msg : String) (hexc : env.loadExc = some msg) :
    (env.netEmpty = true →
      (run fmt args env).term = Term.exit (-1) ∧
      (run fmt args env).stderr =
        ("Exception: " ++ msg) :: cantLoadLines args.proto args.model) ∧
    (env.netEmpty = false →
      (run fmt args env).term =
        (run fmt args { env with loadExc := none }).term ∧
      (run fmt args env).stdout =
        (run fmt args { env with loadExc := none }).stdout ∧
      (run fmt args env).stderr =
        ("Exception: " ++ msg) ::
          (run fmt args { env with loadExc := none }).stderr) := by
  constructor
  · intro hne
    obtain ⟨m, hm, hrun⟩ := run_model_fatal fmt args env ⟨by rw [hexc]; simp, hne⟩
    rw [hexc] at hm
    injection hm with hm
    subst hm
    rw [hrun]
    exact ⟨rfl, rfl⟩
  · intro hne
    have h1 : run fmt args env =
        afterLoad fmt args env (if args.help then [usageMessage] else [])
          ["Exception: " ++ msg] := by
      unfold run
      rw [hexc]
      dsimp only
      rw [hne]
      rfl
    have h2 : run fmt args { env with loadExc := none } =
        afterLoad fmt args env (if args.help then [usageMessage] else [])
          [] := by
      rw [← afterLoad_clear_exc fmt args env]
      rfl
    rw [h1, h2]
    exact afterLoad_errs_shift fmt args env _ ("Exception: " ++ msg) []

/-- C5 witness: the theorem at the concrete environment where loading
throws "boom" but the handle is non-empty. -/
theorem C5_model_load_exception_witness :
    env3.loadExc = some "boom" ∧
    ((env3.netEmpty = true →
      (run fmt0 defaultArgs env3).term = Term.exit (-1) ∧
      (run fmt0 defaultArgs env3).stderr =
        ("Exception: " ++ "boom") ::
          cantLoadLines defaultArgs.proto defaultArgs.model) ∧
     (env3.netEmpty = false →
      (run fmt0 defaultArgs env3).term =
        (run fmt0 defaultArgs { env3 with loadExc := none }).term ∧
      (run fmt0 defaultArgs env3).stdout =
        (run fmt0 defaultArgs { env3 with loadExc := none }).stdout ∧
      (run fmt0 defaultArgs env3).stderr =
        ("Exception: " ++ "boom") ::
          (run fmt0 defaultArgs { env3 with loadExc := none }).stderr)) :=
  ⟨rfl, C5_model_load_exception fmt0 defaultArgs env3 "boom" rfl⟩

/-- C8: on a successful run (no help text, valid network and image,
non-empty output vector, in-range arg-max index k), stdout is exactly
the two lines `Best class: #k '<label_k>'` and `Probability: <p>%`,
where the probability vector holds the reported maximum at index k,
every entry is at most that maximum, every entry before k is strictly
below it (k is the first arg-max of the linear scan), and the printed
value is the maximum times 100. -/
theorem C8_reports_argmax (fmt : ℚ → String) (args : Args) (env : Env)
    (img : Image) (lines : List (List Char)) (name : List Char)
    (hhelp : args.help = false)
    (hload : ¬ modelLoadFatal env)
    (himg : env.image = some img)
    (hlab : env.labelLines = some lines)
    (hvec : probVecOf env img ≠ [])
    (hget : (readLoop lines).get? (classIdOf env img) = some name) :
    (run fmt args env).stdout =
      [ "Best class: #" ++ toString (classIdOf env img) ++ " '" ++
          String.mk name ++ "'"
      , "Probability: " ++ fmt (classProbOf env img * 100) ++ "%" ] ∧
    (probVecOf env img).get? (classIdOf env img) =
      some (classProbOf env img) ∧
    (∀ x ∈ probVecOf env img, x ≤ classProbOf env img) ∧
    (∀ j, j < classIdOf env img → ∀ x,
      (probVecOf env img).get? j = some x → x < classProbOf env img) := by
  constructor
  · rw [run_eq_afterLoad fmt args env hload,
      afterLoad_success fmt args env _ _ img lines name himg hlab hget]
    simp [hhelp]
  · cases hpv : probVecOf env img with
    | nil => exact absurd hpv hvec
    | cons x xs =>
        have h := maxScan_spec x xs
        unfold classIdOf classProbOf
        rw [hpv]
        exact h

/-- C8 witness: the theorem at the concrete successful run (output
vector `[1]`, label file "n a", arg-max index 0, label "a"). -/
theorem C8_reports_argmax_witness :
    defaultArgs.help = false ∧
    probVecOf env0 img0 ≠ [] ∧
    (readLoop [['n', ' ', 'a']]).get? (classIdOf env0 img0) = some ['a'] ∧
    ((run fmt0 defaultArgs env0).stdout =
      [ "Best class: #" ++ toString (classIdOf env0 img0) ++ " '" ++
          String.mk ['a'] ++ "'"
      , "Probability: " ++ fmt0 (classProbOf env0 img0 * 100) ++ "%" ] ∧
    (probVecOf env0 img0).get? (classIdOf env0 img0) =
      some (classProbOf env0 img0) ∧
    (∀ x ∈ probVecOf env0 img0, x ≤ classProbOf env0 img0) ∧
    (∀ j, j < classIdOf env0 img0 → ∀ x,
      (probVecOf env0 img0).get? j = some x → x < classProbOf env0 img0)) :=
  ⟨rfl, by decide, rfl,
    C8_reports_argmax fmt0 defaultArgs env0 img0 [['n', ' ', 'a']] ['a']
      rfl (fun h => h.1 rfl) rfl rfl (by decide) rfl⟩

end GoogleNet
